import Mathlib

/-!
Verification of the google-forms-mcp repository's core logic: the item
sanitizer, the batch/legacy form-duplication engines, the personalization
replacement loop, and the CSV response export.  Definitions are shallow
embeddings of the Python source in `src/gforms/api.py` and `forms_api.py`.
-/

namespace GForms

/-! ### Python `str.replace` semantics

`s.replace(pat, rep)` scans left to right, replacing each non-overlapping
occurrence of `pat` with `rep`; an empty pattern inserts `rep` at every
position (before each character and at the end). -/

/-- Fuel-driven scanner for `str.replace` with a nonempty pattern: at each
position, if `pat` is a prefix of the remaining text, emit `rep` and skip
`pat.length` characters, else keep the head character.  The fuel is the
length of the input, which suffices because each step consumes at least one
character; the fuel-0 fallback is unreachable under that invariant. -/
def replaceGo (pat rep : List Char) : Nat → List Char → List Char
  | _, [] => []
  | 0, s => s
  | fuel + 1, c :: rest =>
    if pat.isPrefixOf (c :: rest) then
      rep ++ replaceGo pat rep fuel ((c :: rest).drop pat.length)
    else
      c :: replaceGo pat rep fuel rest

/-- Python `str.replace` on character lists. -/
def pyReplace (s pat rep : List Char) : List Char :=
  if pat = [] then rep ++ s.foldr (fun c acc => c :: (rep ++ acc)) []
  else replaceGo pat rep s.length s

/-- Python `str.replace` on strings. -/
def pyStrReplace (s pat rep : String) : String :=
  ⟨pyReplace s.data pat.data rep.data⟩

/-- The newline normalization used throughout the source:
`text.replace('\n', ' ').replace('\r', '')`. -/
def cleanStr (s : String) : String :=
  pyStrReplace (pyStrReplace s "\n" " ") "\r" ""

/-- Character-level effect of replacing `'\n'` with a space. -/
def nlToSpace (c : Char) : Char := if c = '\n' then ' ' else c

/-! ### Data model

Forms, items and questions as the Forms API returns them: dictionaries with
optional keys.  Each structure mirrors exactly the keys the repository's
code reads or writes; keys the code copies verbatim without inspecting are
collected in an `other` association list. -/

/-- A sub-question's `rowQuestion` block (only `title` is read). -/
structure RowQuestion where
  title : Option String := none
  deriving DecidableEq

/-- One entry of `questionGroupItem.questions`. -/
structure GroupQuestion where
  questionId : Option String := none
  rowQuestion : Option RowQuestion := none
  other : List (String × String) := []
  deriving DecidableEq

/-- One entry of a choice question's (or grid columns') `options` list. -/
structure ChoiceOption where
  value : Option String := none
  other : List (String × String) := []
  deriving DecidableEq

/-- The `scaleQuestion` payload. -/
structure ScaleQuestion where
  low : Option Int := none
  high : Option Int := none
  lowLabel : Option String := none
  highLabel : Option String := none
  deriving DecidableEq

/-- The `choiceQuestion` payload. -/
structure ChoiceQuestion where
  options : Option (List ChoiceOption) := none
  other : List (String × String) := []
  deriving DecidableEq

/-- The `question` block nested in a `questionItem`. -/
structure Question where
  questionId : Option String := none
  required : Option Bool := none
  scaleQuestion : Option ScaleQuestion := none
  choiceQuestion : Option ChoiceQuestion := none
  other : List (String × String) := []
  deriving DecidableEq

/-- The `questionItem` item-kind payload. -/
structure QuestionItem where
  question : Question
  image : Option String := none
  other : List (String × String) := []
  deriving DecidableEq

/-- The `grid.columns` block of a question group. -/
structure GridColumns where
  options : Option (List ChoiceOption) := none
  other : List (String × String) := []
  deriving DecidableEq

/-- The `grid` block of a question group. -/
structure Grid where
  columns : Option GridColumns := none
  other : List (String × String) := []
  deriving DecidableEq

/-- The `questionGroupItem` item-kind payload. -/
structure QuestionGroupItem where
  questions : Option (List GroupQuestion) := none
  grid : Option Grid := none
  other : List (String × String) := []
  deriving DecidableEq

/-- One item of a form's `items` sequence. -/
structure Item where
  itemId : Option String := none
  title : Option String := none
  description : Option String := none
  questionItem : Option QuestionItem := none
  questionGroupItem : Option QuestionGroupItem := none
  pageBreakItem : Option String := none
  textItem : Option String := none
  imageItem : Option String := none
  videoItem : Option String := none
  other : List (String × String) := []
  deriving DecidableEq

/-- The `quizSettings` block of a form's settings. -/
structure QuizSettings where
  isQuiz : Bool
  deriving DecidableEq

/-- The `settings` block of a form. -/
structure Settings where
  quizSettings : Option QuizSettings := none
  other : List (String × String) := []
  deriving DecidableEq

/-- The `info` block of a form. -/
structure FormInfo where
  title : Option String := none
  description : Option String := none
  deriving DecidableEq

/-- A form as returned by `get_form`. -/
structure Form where
  info : Option FormInfo := none
  settings : Option Settings := none
  items : Option (List Item) := none
  deriving DecidableEq

/-! ### Item Sanitizer

`FormsAPI._clean_item_for_duplication` — two copies exist in the source
tree: the CLI one in `src/gforms/api.py` (strips ids and normalizes
newlines) and the root-level one in `forms_api.py` (strips ids only). -/

/-- Cleaning of the root question of a `questionItem`
(`src/gforms/api.py` lines 937-958): drop `questionId`, normalize newlines
in scale labels and in every choice option's display value. -/
def cleanQuestion (q : Question) : Question :=
  { q with
    questionId := none
    scaleQuestion := q.scaleQuestion.map fun sc =>
      { sc with
        lowLabel := sc.lowLabel.map cleanStr
        highLabel := sc.highLabel.map cleanStr }
    choiceQuestion := q.choiceQuestion.map fun cq =>
      { cq with
        options := cq.options.map (List.map fun o =>
          { o with value := o.value.map cleanStr }) } }

/-- `FormsAPI._clean_item_for_duplication` from `src/gforms/api.py`
(lines 926-989): copy `title`/`description` with newline normalization,
then copy exactly one item-kind payload (the `elif` chain), stripping
`questionId`s and normalizing newlines in grid column option values. -/
def cleanItem (it : Item) : Item :=
  let base : Item :=
    { itemId := none
      title := it.title.map cleanStr
      description := it.description.map cleanStr }
  match it.questionItem with
  | some qi =>
    let qitem : QuestionItem := { question := cleanQuestion qi.question, image := qi.image }
    { base with questionItem := some qitem }
  | none =>
  match it.questionGroupItem with
  | some g =>
    let cleanGrid : Grid → Grid := fun gr =>
      { gr with columns := gr.columns.map fun cols =>
          { cols with options := cols.options.map (List.map fun o =>
              { o with value := o.value.map cleanStr }) } }
    let group : QuestionGroupItem :=
      { g with
        questions := g.questions.map (List.map fun q => { q with questionId := none })
        grid := g.grid.map cleanGrid }
    { base with questionGroupItem := some group }
  | none =>
  match it.pageBreakItem with
  | some pb => { base with pageBreakItem := some pb }
  | none =>
  match it.textItem with
  | some t => { base with textItem := some t }
  | none =>
  match it.imageItem with
  | some im => { base with imageItem := some im }
  | none =>
  match it.videoItem with
  | some v => { base with videoItem := some v }
  | none => base

/-- `FormsAPI._clean_item_for_duplication` from the root-level
`forms_api.py` (lines 728-777): copy `title`/`description` verbatim and
strip `questionId`s; no newline normalization is performed. -/
def cleanItemLegacy (it : Item) : Item :=
  let base : Item :=
    { itemId := none
      title := it.title
      description := it.description }
  match it.questionItem with
  | some qi =>
    let qitem : QuestionItem :=
      { question := { qi.question with questionId := none }, image := qi.image }
    { base with questionItem := some qitem }
  | none =>
  match it.questionGroupItem with
  | some g =>
    let group : QuestionGroupItem :=
      { g with questions := g.questions.map (List.map fun q => { q with questionId := none }) }
    { base with questionGroupItem := some group }
  | none =>
  match it.pageBreakItem with
  | some pb => { base with pageBreakItem := some pb }
  | none =>
  match it.textItem with
  | some t => { base with textItem := some t }
  | none =>
  match it.imageItem with
  | some im => { base with imageItem := some im }
  | none =>
  match it.videoItem with
  | some v => { base with videoItem := some v }
  | none => base

/-! ### Duplication Engine

`FormsAPI._duplicate_form_batch` and `FormsAPI._duplicate_form_legacy`
(`src/gforms/api.py` lines 747-924) and `FormsAPI.duplicate_form`
(`forms_api.py` lines 652-726).  Remote calls are modelled as a log of
issued requests; a failure oracle says which `batchUpdate` call of the run
fails (the fetch and the shell creation are taken to succeed, as the claims
under verification only concern the copy phase). -/

/-- One operation inside a `batchUpdate` request body. -/
inductive BatchRequest where
  | updateSettings (settings : Settings) (updateMask : String)
  | createItem (item : Item) (index : Nat)
  deriving DecidableEq

/-- One remote call issued by the engine (`create_form` is counted as the
single "destination creation" call, as the engine's own `api_calls`
accounting does). -/
inductive RemoteCall where
  | getForm (formId : String)
  | createForm (title : String) (description : String)
  | batchUpdate (formId : String) (requests : List BatchRequest)
  deriving DecidableEq

/-- The duplication report built by the gforms engine. -/
structure DupResult where
  newFormId : String
  copiedItems : Nat
  totalItems : Nat
  apiCalls : Nat
  method : String
  chunked : Bool
  deriving DecidableEq

/-- `if 'quizSettings' not in settings: settings['quizSettings'] =
{'isQuiz': False}` (`src/gforms/api.py` lines 766-768 and 865-867). -/
def ensureQuizSettings (s : Settings) : Settings :=
  if s.quizSettings.isSome then s else { s with quizSettings := some { isQuiz := false } }

/-- The optional leading settings-replace operation of the batch request
list (`src/gforms/api.py` lines 765-774). -/
def settingsRequests (original : Form) : List BatchRequest :=
  match original.settings with
  | some s => [.updateSettings (ensureQuizSettings s) "*"]
  | none => []

/-- The `for i, original_item in enumerate(items)` loop building one
`createItem` operation per source item at its original index
(`src/gforms/api.py` lines 777-784). -/
def createItemReqs : Nat → List Item → List BatchRequest
  | _, [] => []
  | i, it :: rest => .createItem (cleanItem it) i :: createItemReqs (i + 1) rest

/-- The flat operation sequence of `_duplicate_form_batch` step 3. -/
def buildBatchRequests (original : Form) : List BatchRequest :=
  settingsRequests original ++ createItemReqs 0 (original.items.getD [])

/-- Fuel-driven slicer behind `chunksOf`: each step emits a slice of `n`
elements and drops them; the fuel is the list length, which suffices since
every step consumes at least one element. -/
def chunksGo (n : Nat) : Nat → List α → List (List α)
  | _, [] => []
  | 0, _ :: _ => []
  | fuel + 1, c :: rest =>
    match n with
    | 0 => []
    | m + 1 => (c :: rest).take (m + 1) :: chunksGo n fuel (rest.drop m)

/-- Split a list into successive slices of at most `n` elements
(`for i in range(0, len(item_requests), chunk_size)`); `n = 0` would make
the Python `range` raise, so that case is mapped to no chunks. -/
def chunksOf (n : Nat) (l : List α) : List (List α) := chunksGo n l.length l

/-- The chunk list of the chunked execution path
(`src/gforms/api.py` lines 803-817): the settings operation, when present,
is prepended to the first chunk of item operations. -/
def duplicationChunks (original : Form) (chunkSize : Nat) : List (List BatchRequest) :=
  let reqs := buildBatchRequests original
  match original.settings with
  | some _ =>
    match chunksOf chunkSize (reqs.drop 1) with
    | [] => []
    | c :: cs => (reqs.take 1 ++ c) :: cs
  | none => chunksOf chunkSize reqs

/-- `len([r for r in chunk if 'createItem' in r])`. -/
def countCreateItems (chunk : List BatchRequest) : Nat :=
  (chunk.filter fun r => match r with | .createItem _ _ => true | _ => false).length

/-- The chunk submission loop (`src/gforms/api.py` lines 819-829): each
chunk is one `batchUpdate` call; on success the call and its item count are
accumulated, on failure an exception naming the 1-based chunk number is
raised, aborting the remaining chunks.  Returns the accumulated
`(api_calls_added, total_copied)` or the raised message, together with the
calls issued. -/
def runChunksAux (newFormId : String) (fails : Nat → Bool) :
    List (List BatchRequest) → Nat → Except String (Nat × Nat) × List RemoteCall
  | [], _ => (.ok (0, 0), [])
  | c :: cs, idx =>
    if fails idx then
      (.error ("Failed to duplicate chunk " ++ toString (idx + 1)), [.batchUpdate newFormId c])
    else
      let rest := runChunksAux newFormId fails cs (idx + 1)
      let res :=
        match rest.1 with
        | .ok (calls, copied) => Except.ok (calls + 1, copied + countCreateItems c)
        | .error e => Except.error e
      (res, .batchUpdate newFormId c :: rest.2)

/-- `FormsAPI._duplicate_form_batch` (`src/gforms/api.py` lines 747-846):
fetch the source, create the destination shell, then submit the operation
sequence as one `batchUpdate` when it fits in `chunkSize`, else as ordered
chunks; a failing call raises.  Returns the outcome and the log of remote
calls issued. -/
def duplicateFormBatch (original : Form) (formId newFormId newTitle : String)
    (chunkSize : Nat) (fails : Nat → Bool) : Except String DupResult × List RemoteCall :=
  let items := original.items.getD []
  let desc := (original.info.bind FormInfo.description).getD ""
  let baseLog : List RemoteCall := [.getForm formId, .createForm newTitle desc]
  let reqs := buildBatchRequests original
  if reqs.isEmpty then
    let r : DupResult :=
      { newFormId := newFormId, copiedItems := 0, totalItems := items.length
        apiCalls := 2, method := "batch", chunked := false }
    (.ok r, baseLog)
  else if reqs.length ≤ chunkSize then
    if fails 0 then
      (.error "Failed to batch duplicate form", baseLog ++ [.batchUpdate newFormId reqs])
    else
      let r : DupResult :=
        { newFormId := newFormId, copiedItems := items.length, totalItems := items.length
          apiCalls := 3, method := "batch", chunked := false }
      (.ok r, baseLog ++ [.batchUpdate newFormId reqs])
  else
    let run := runChunksAux newFormId fails (duplicationChunks original chunkSize) 0
    let res : Except String DupResult :=
      match run.1 with
      | .ok (calls, copied) =>
        let r : DupResult :=
          { newFormId := newFormId, copiedItems := copied, totalItems := items.length
            apiCalls := 2 + calls, method := "batch", chunked := true }
        Except.ok r
      | .error e => Except.error e
    (res, baseLog ++ run.2)

/-- The per-item copy loop shared by the two sequential duplication paths
(`src/gforms/api.py` lines 887-908, `forms_api.py` lines 693-716): one
`batchUpdate` call per item carrying a single `createItem` at the item's
original index; a failing item is logged and skipped.  Returns
`(successful_calls, copied_count, calls_issued)`; the two paths differ only
in the sanitizer they apply. -/
def itemByItemLoop (clean : Item → Item) (newFormId : String) (itemFails : Nat → Bool) :
    List Item → Nat → Nat × Nat × List RemoteCall
  | [], _ => (0, 0, [])
  | it :: rest, i =>
    let call : RemoteCall := .batchUpdate newFormId [.createItem (clean it) i]
    let r := itemByItemLoop clean newFormId itemFails rest (i + 1)
    if itemFails i then (r.1, r.2.1, call :: r.2.2)
    else (r.1 + 1, r.2.1 + 1, call :: r.2.2)

/-- `FormsAPI._duplicate_form_legacy` (`src/gforms/api.py` lines 848-924):
fetch, create shell, copy settings (with the quiz-flag default) in one
call, then copy items one call each. -/
def duplicateFormLegacy (original : Form) (formId newFormId newTitle : String)
    (itemFails : Nat → Bool) : Except String DupResult × List RemoteCall :=
  let items := original.items.getD []
  let desc := (original.info.bind FormInfo.description).getD ""
  let baseLog : List RemoteCall := [.getForm formId, .createForm newTitle desc]
  let settingsLog : List RemoteCall :=
    match original.settings with
    | some s => [.batchUpdate newFormId [.updateSettings (ensureQuizSettings s) "*"]]
    | none => []
  let run := itemByItemLoop cleanItem newFormId itemFails items 0
  let r : DupResult :=
    { newFormId := newFormId, copiedItems := run.2.1, totalItems := items.length
      apiCalls := 2 + settingsLog.length + run.1, method := "legacy", chunked := false }
  (.ok r, baseLog ++ settingsLog ++ run.2.2)

/-- The duplication report built by the root-level `forms_api.py` engine. -/
structure RootDupResult where
  newFormId : String
  copiedItems : Nat
  totalItems : Nat
  deriving DecidableEq

/-- `FormsAPI.duplicate_form` from the root-level `forms_api.py`
(lines 652-726): like the sequential path, but the source settings are
submitted verbatim (no quiz-flag default) and items pass through the
root-level sanitizer. -/
def duplicateFormRoot (original : Form) (formId newFormId newTitle : String)
    (itemFails : Nat → Bool) : RootDupResult × List RemoteCall :=
  let items := original.items.getD []
  let desc := (original.info.bind FormInfo.description).getD ""
  let baseLog : List RemoteCall := [.getForm formId, .createForm newTitle desc]
  let settingsLog : List RemoteCall :=
    match original.settings with
    | some s => [.batchUpdate newFormId [.updateSettings s "*"]]
    | none => []
  let run := itemByItemLoop cleanItemLegacy newFormId itemFails items 0
  let r : RootDupResult :=
    { newFormId := newFormId, copiedItems := run.2.1, totalItems := items.length }
  (r, baseLog ++ settingsLog ++ run.2.2)

/-! ### Personalization Engine

`FormsAPI.personalize_form` (`src/gforms/api.py` lines 991-1062).  The
replacement loop `for placeholder, replacement in replacements.items():
text = text.replace(placeholder, replacement)` applies each pair, in
mapping order, to the entire text produced by the previous pairs. -/

/-- The replacement loop applied to one text field. -/
def applyReplacements (repls : List (String × String)) (text : String) : String :=
  repls.foldl (fun acc pr => pyStrReplace acc pr.1 pr.2) text

/-- The personalized form title (`src/gforms/api.py` lines 1013-1019). -/
def personalizeFormTitle (form : Form) (repls : List (String × String)) : String :=
  applyReplacements repls ((form.info.bind FormInfo.title).getD "")

/-- The personalized form description (`src/gforms/api.py` lines
1014-1020). -/
def personalizeFormDescription (form : Form) (repls : List (String × String)) : String :=
  applyReplacements repls ((form.info.bind FormInfo.description).getD "")

/-! ### Response export

`FormsAPI.export_responses_csv` (`src/gforms/api.py` lines 636-725). -/

/-- One entry of `textAnswers.answers`. -/
structure TextAnswerEntry where
  value : Option String := none
  deriving DecidableEq

/-- The answer payload keyed by question id. -/
structure AnswerVal where
  textAnswers : Option (List TextAnswerEntry) := none
  deriving DecidableEq

/-- A form response as returned by `responses.list`. -/
structure FormResponse where
  createTime : Option String := none
  respondentEmail : Option String := none
  answers : List (String × AnswerVal) := []
  deriving DecidableEq

/-- Python-dict insertion: overwrite in place when the key exists, append
otherwise. -/
def dictInsert (m : List (String × String)) (k v : String) : List (String × String) :=
  if m.any (fun p => p.1 = k) then m.map (fun p => if p.1 = k then (k, v) else p)
  else m ++ [(k, v)]

/-- The grid branch of the question-map construction (`src/gforms/api.py`
lines 681-690). -/
def addGroupQuestions (gridTitle : String) :
    List GroupQuestion → List (String × String) × List String →
      List (String × String) × List String
  | [], st => st
  | q :: rest, (qm, hdr) =>
    match q.questionId with
    | some qid =>
      let rowTitle := (q.rowQuestion.bind RowQuestion.title).getD ""
      let fullTitle := if rowTitle ≠ "" then gridTitle ++ " - " ++ rowTitle else gridTitle
      addGroupQuestions gridTitle rest (dictInsert qm qid fullTitle, hdr ++ [fullTitle])
    | none => addGroupQuestions gridTitle rest (qm, hdr)

/-- The question-map/header construction (`src/gforms/api.py` lines
672-690): an ordered map from question id to column title plus the header
cells appended along the way. -/
def buildQMap : List Item → List (String × String) × List String →
    List (String × String) × List String
  | [], st => st
  | it :: rest, (qm, hdr) =>
    match it.questionItem with
    | some qi =>
      match qi.question.questionId with
      | some qid =>
        let t := it.title.getD ("Question " ++ qid)
        buildQMap rest (dictInsert qm qid t, hdr ++ [t])
      | none => buildQMap rest (qm, hdr)
    | none =>
      match it.questionGroupItem with
      | some g =>
        let gridTitle := it.title.getD "Grid"
        buildQMap rest (addGroupQuestions gridTitle (g.questions.getD []) (qm, hdr))
      | none => buildQMap rest (qm, hdr)

/-- One data cell (`src/gforms/api.py` lines 703-712). -/
def answerCell (answers : List (String × AnswerVal)) (qid : String) : String :=
  match answers.lookup qid with
  | some a =>
    match a.textAnswers with
    | some tas => String.intercalate "; " (tas.map (fun t => t.value.getD ""))
    | none => ""
  | none => ""

/-- One data row (`src/gforms/api.py` lines 695-712). -/
def responseRow (includeTs includeEmail : Bool) (qmap : List (String × String))
    (r : FormResponse) : List String :=
  (if includeTs then [r.createTime.getD ""] else []) ++
    (if includeEmail then [r.respondentEmail.getD ""] else []) ++
    qmap.map (fun p => answerCell r.answers p.1)

/-- `csv.writer` field quoting (QUOTE_MINIMAL). -/
def csvField (s : String) : String :=
  if s.data.any (fun c => c == ',' || c == '"' || c == '\n' || c == '\r') then
    "\"" ++ pyStrReplace s "\"" "\"\"" ++ "\""
  else s

/-- `csv.writer.writerow` with the default `\r\n` line terminator. -/
def csvRow (fields : List String) : String :=
  String.intercalate "," (fields.map csvField) ++ "\r\n"

/-- `FormsAPI.export_responses_csv` (`src/gforms/api.py` lines 650-722):
with no responses, return an empty CSV and row count 0 before any header
is built; otherwise emit the header row then one row per response. -/
def exportResponsesCsv (form : Form) (responses : List FormResponse)
    (includeTimestamps includeEmail : Bool) : String × Nat :=
  if responses.isEmpty then ("", 0)
  else
    let baseHeader :=
      (if includeTimestamps then ["Timestamp"] else []) ++
        (if includeEmail then ["Email"] else [])
    let built := buildQMap (form.items.getD []) ([], [])
    let header := baseHeader ++ built.2
    let body :=
      csvRow header ++
        String.join (responses.map (fun r => csvRow (responseRow includeTimestamps includeEmail built.1 r)))
    (body, responses.length)

/-! ### Extraction helpers over request logs -/

/-- The request bodies of the `batchUpdate` calls in a log. -/
def batchUpdatesOf (log : List RemoteCall) : List (List BatchRequest) :=
  log.filterMap fun c => match c with | .batchUpdate _ reqs => some reqs | _ => none

/-- The settings payloads of the `updateSettings` operations in a request
list. -/
def settingsOps (l : List BatchRequest) : List Settings :=
  l.filterMap fun r => match r with | .updateSettings s _ => some s | _ => none

/-- The `(item, index)` pairs of the `createItem` operations in a request
list, in submission order. -/
def createItemOps (l : List BatchRequest) : List (Item × Nat) :=
  l.filterMap fun r => match r with | .createItem it i => some (it, i) | _ => none

/-- All `createItem` operations submitted across a log's `batchUpdate`
calls, in submission order. -/
def createItemOpsOfLog (log : List RemoteCall) : List (Item × Nat) :=
  ((batchUpdatesOf log).map createItemOps).flatten

/-- All `updateSettings` payloads submitted across a log. -/
def settingsOpsOfLog (log : List RemoteCall) : List Settings :=
  ((batchUpdatesOf log).map settingsOps).flatten

/-! ### Properties of the sanitizer -/

/-- A string free of embedded line breaks. -/
def strClean (s : String) : Bool :=
  s.data.all (fun c => !(c == '\n') && !(c == '\r'))

/-- An optional string field free of embedded line breaks. -/
def optClean (o : Option String) : Bool := o.all strClean

/-- Every option's display value free of embedded line breaks. -/
def optionsClean (os : List ChoiceOption) : Bool := os.all (fun o => optClean o.value)

/-- All the text fields of an item that duplication resubmits to the write
API: the item title and description, the scale question's low/high labels,
and every choice (and grid column) option's display value. -/
def itemTextFieldsClean (it : Item) : Bool :=
  optClean it.title && optClean it.description &&
    it.questionItem.all (fun qi =>
      (qi.question.scaleQuestion.all fun sc => optClean sc.lowLabel && optClean sc.highLabel) &&
        (qi.question.choiceQuestion.all fun cq => cq.options.all optionsClean)) &&
    it.questionGroupItem.all (fun g =>
      g.grid.all fun gr => gr.columns.all fun cols => cols.options.all optionsClean)

/-- The six mutually exclusive item-kind payloads of an item. -/
def itemKindPayload (it : Item) :
    Option QuestionItem × Option QuestionGroupItem × Option String × Option String ×
      Option String × Option String :=
  (it.questionItem, it.questionGroupItem, it.pageBreakItem, it.textItem, it.imageItem,
    it.videoItem)

/-- No server-assigned identifier fields: no `itemId`, no root-question
`questionId`, no `questionId` on any grid sub-question. -/
def noIdentifiers (it : Item) : Bool :=
  it.itemId.isNone &&
    it.questionItem.all (fun qi => qi.question.questionId.isNone) &&
    it.questionGroupItem.all (fun g =>
      (g.questions.getD []).all fun q => q.questionId.isNone)

/-! ### Concrete fixtures used by counterexamples and witnesses -/

/-- A form whose title is the single letter `A`. -/
def formTitleA : Form := { info := some { title := some "A" } }

/-- A form whose title contains the `NAME` placeholder. -/
def formTitleName : Form := { info := some { title := some "Hi NAME, welcome" } }

/-- An item whose title embeds a newline. -/
def newlineItem : Item := { title := some "Line1\nLine2" }

/-- The all-success failure oracle. -/
def noFail : Nat → Bool := fun _ => false

/-- The remote calls the per-item copy loop issues for a given item list
starting at a given index. -/
def itemCalls (clean : Item → Item) (nid : String) : List Item → Nat → List RemoteCall
  | [], _ => []
  | it :: rest, i =>
    RemoteCall.batchUpdate nid [.createItem (clean it) i] :: itemCalls clean nid rest (i + 1)

/-- The `(sanitized item, target index)` pairs for an item list starting at
a given index. -/
def indexedOps (clean : Item → Item) : List Item → Nat → List (Item × Nat)
  | [], _ => []
  | it :: rest, i => (clean it, i) :: indexedOps clean rest (i + 1)

/-! ### Concrete engine fixtures -/

/-- A minimal question item used to populate fixture forms. -/
def qItemA : Item := { title := some "Q1" }

/-- A second minimal question item. -/
def qItemB : Item := { title := some "Q2" }

/-- A settings block that already carries a quiz flag. -/
def settingsWithQuiz : Settings := { quizSettings := some { isQuiz := false } }

/-- A settings block without any quiz flag. -/
def settingsNoQuiz : Settings := { other := [("emailCollectionType", "VERIFIED")] }

/-- Two items plus a settings block: `M + has_settings = 3`. -/
def formTwoItemsWithSettings : Form :=
  { settings := some settingsWithQuiz, items := some [qItemA, qItemB] }

/-- Five items, no settings block. -/
def formFiveItems : Form := { items := some [qItemA, qItemA, qItemA, qItemA, qItemA] }

/-- A source form whose settings block lacks a quiz flag. -/
def formSettingsNoQuiz : Form := { settings := some settingsNoQuiz }

/-- Zero items but a settings block present. -/
def formEmptyWithSettings : Form := { settings := some settingsWithQuiz, items := some [] }

/-- Zero items and no settings block. -/
def formEmptyNoSettings : Form := { items := some [] }

/-- The failure oracle under which the second batched call fails. -/
def failSecondChunk : Nat → Bool := fun k => k == 1

/-- The report a batch duplication returns for a zero-item source. -/
def emptyDupResult (nid : String) (calls : Nat) : DupResult :=
  { newFormId := nid
    copiedItems := 0
    totalItems := 0
    apiCalls := calls
    method := "batch"
    chunked := false }

/-! ### Theorems -/

theorem replaceGo_single (p : Char) (rep : List Char) (fuel : Nat) (c : Char)
    (rest : List Char) :
    replaceGo [p] rep (fuel + 1) (c :: rest) =
      if c = p then rep ++ replaceGo [p] rep fuel rest
      else c :: replaceGo [p] rep fuel rest := by
  simp only [replaceGo, List.isPrefixOf, List.drop_succ_cons, List.drop_zero]
  by_cases h : c = p
  · subst h; simp
  · have : ¬ (p == c && true) = true := by
      simp [Ne.symm h]
    simp [this, h]

theorem replaceGo_single_eq_foldr (p : Char) (rep : List Char) :
    ∀ (s : List Char) (fuel : Nat), s.length ≤ fuel →
      replaceGo [p] rep fuel s =
        s.foldr (fun c acc => if c = p then rep ++ acc else c :: acc) [] := by
  intro s
  induction s with
  | nil => intro fuel _; cases fuel <;> rfl
  | cons c rest ih =>
    intro fuel hf
    cases fuel with
    | zero => simp at hf
    | succ n =>
      rw [replaceGo_single]
      have hrest : rest.length ≤ n := by
        simpa [Nat.succ_le_succ_iff] using hf
      rw [ih n hrest]
      rfl

theorem foldr_nl_eq_map (s : List Char) :
    s.foldr (fun c acc => if c = '\n' then [' '] ++ acc else c :: acc) [] =
      s.map nlToSpace := by
  induction s with
  | nil => rfl
  | cons c rest ih =>
    simp only [List.foldr_cons, List.map_cons, ih]
    by_cases h : c = '\n'
    · subst h; simp [nlToSpace]
    · simp [h, nlToSpace]

theorem foldr_cr_eq_filter (s : List Char) :
    s.foldr (fun c acc => if c = '\r' then [] ++ acc else c :: acc) [] =
      s.filter (fun c => !(c == '\r')) := by
  induction s with
  | nil => rfl
  | cons c rest ih =>
    simp only [List.foldr_cons, List.filter_cons, ih]
    by_cases h : c = '\r'
    · subst h; simp
    · simp [h]

theorem pyReplace_nl (s : List Char) :
    pyReplace s ['\n'] [' '] = s.map nlToSpace := by
  unfold pyReplace
  rw [if_neg (by simp)]
  rw [replaceGo_single_eq_foldr '\n' [' '] s s.length (Nat.le_refl _)]
  exact foldr_nl_eq_map s

theorem pyReplace_cr (s : List Char) :
    pyReplace s ['\r'] [] = s.filter (fun c => !(c == '\r')) := by
  unfold pyReplace
  rw [if_neg (by simp)]
  rw [replaceGo_single_eq_foldr '\r' [] s s.length (Nat.le_refl _)]
  exact foldr_cr_eq_filter s

/-- Characterization of the normalization: every `'\n'` becomes a single
space, then every `'\r'` is dropped. -/
theorem cleanStr_data (s : String) :
    (cleanStr s).data = (s.data.map nlToSpace).filter (fun c => !(c == '\r')) := by
  show pyReplace (pyReplace s.data ['\n'] [' ']) ['\r'] [] = _
  rw [pyReplace_nl, pyReplace_cr]

theorem cleanStr_no_nl (s : String) : '\n' ∉ (cleanStr s).data := by
  rw [cleanStr_data]
  intro hmem
  have hmap := List.mem_of_mem_filter hmem
  rcases List.mem_map.mp hmap with ⟨a, _, ha⟩
  unfold nlToSpace at ha
  by_cases h : a = '\n'
  · rw [if_pos h] at ha; exact absurd ha (by decide)
  · rw [if_neg h] at ha; exact h ha

theorem cleanStr_no_cr (s : String) : '\r' ∉ (cleanStr s).data := by
  rw [cleanStr_data]
  intro hmem
  have := List.of_mem_filter hmem
  simp at this

theorem cleanStr_idem (s : String) : cleanStr (cleanStr s) = cleanStr s := by
  have hnl := cleanStr_no_nl s
  have hcr := cleanStr_no_cr s
  apply String.ext
  rw [cleanStr_data]
  have hmap : (cleanStr s).data.map nlToSpace = (cleanStr s).data := by
    calc (cleanStr s).data.map nlToSpace
        = (cleanStr s).data.map id := by
          apply List.map_congr_left
          intro c hc
          have : c ≠ '\n' := fun h => hnl (h ▸ hc)
          simp [nlToSpace, this]
      _ = (cleanStr s).data := List.map_id _
  rw [hmap]
  apply List.filter_eq_self.mpr
  intro c hc
  have : c ≠ '\r' := fun h => hcr (h ▸ hc)
  simp [this]

theorem strClean_cleanStr (s : String) : strClean (cleanStr s) = true := by
  apply List.all_eq_true.mpr
  intro c hc
  have h1 : c ≠ '\n' := fun h => cleanStr_no_nl s (h ▸ hc)
  have h2 : c ≠ '\r' := fun h => cleanStr_no_cr s (h ▸ hc)
  simp [h1, h2]

theorem optClean_map_cleanStr (o : Option String) : optClean (o.map cleanStr) = true := by
  cases o with
  | none => rfl
  | some s => simpa [optClean] using strClean_cleanStr s

theorem optionsClean_map_cleanStr (os : List ChoiceOption) :
    optionsClean (os.map fun o => { o with value := o.value.map cleanStr }) = true := by
  apply List.all_eq_true.mpr
  intro o ho
  rcases List.mem_map.mp ho with ⟨a, _, rfl⟩
  simpa using optClean_map_cleanStr a.value

theorem cleanQuestion_text_clean (q : Question) :
    ((cleanQuestion q).scaleQuestion.all fun sc =>
        optClean sc.lowLabel && optClean sc.highLabel) = true ∧
    ((cleanQuestion q).choiceQuestion.all fun cq => cq.options.all optionsClean) = true := by
  constructor
  · cases hs : q.scaleQuestion with
    | none => simp [cleanQuestion, hs]
    | some sc => simp [cleanQuestion, hs, optClean_map_cleanStr]
  · cases hc : q.choiceQuestion with
    | none => simp [cleanQuestion, hc]
    | some cq =>
      cases ho : cq.options with
      | none => simp [cleanQuestion, hc, ho]
      | some os => simp [cleanQuestion, hc, ho, optionsClean_map_cleanStr]

theorem cleanItem_text_fields_clean (it : Item) :
    itemTextFieldsClean (cleanItem it) = true := by
  unfold cleanItem
  cases hqi : it.questionItem with
  | some qi =>
    have hq := cleanQuestion_text_clean qi.question
    simp [itemTextFieldsClean, optClean_map_cleanStr, hq.1, hq.2]
  | none =>
  cases hqg : it.questionGroupItem with
  | some g =>
    cases hgr : g.grid with
    | none => simp [itemTextFieldsClean, hgr, optClean_map_cleanStr]
    | some gr =>
      cases hcols : gr.columns with
      | none => simp [itemTextFieldsClean, hgr, hcols, optClean_map_cleanStr]
      | some cols =>
        cases hos : cols.options with
        | none => simp [itemTextFieldsClean, hgr, hcols, hos, optClean_map_cleanStr]
        | some os =>
          simp [itemTextFieldsClean, hgr, hcols, hos, optClean_map_cleanStr,
            optionsClean_map_cleanStr os]
  | none =>
  cases it.pageBreakItem <;> cases it.textItem <;> cases it.imageItem <;>
    cases it.videoItem <;>
    simp [itemTextFieldsClean, optClean_map_cleanStr]

theorem optMap_cleanStr_idem (o : Option String) :
    (o.map cleanStr).map cleanStr = o.map cleanStr := by
  cases o <;> simp [cleanStr_idem]

theorem optMap_cleanStr_comp (o : Option String) :
    Option.map (cleanStr ∘ cleanStr) o = Option.map cleanStr o := by
  cases o <;> simp [cleanStr_idem]

theorem optionsMap_cleanStr_idem (os : List ChoiceOption) :
    ((os.map fun o => { o with value := o.value.map cleanStr }).map
        fun o => { o with value := o.value.map cleanStr }) =
      os.map fun o => { o with value := o.value.map cleanStr } := by
  rw [List.map_map]
  apply List.map_congr_left
  intro o _
  simp [optMap_cleanStr_comp, optMap_cleanStr_idem, optMap_cleanStr_comp]

theorem cleanQuestion_idem (q : Question) :
    cleanQuestion (cleanQuestion q) = cleanQuestion q := by
  unfold cleanQuestion
  cases hs : q.scaleQuestion with
  | none =>
    cases hc : q.choiceQuestion with
    | none => simp
    | some cq =>
      cases ho : cq.options with
      | none => simp [ho]
      | some os => simp [ho, optMap_cleanStr_comp, optionsMap_cleanStr_idem]
  | some sc =>
    cases hc : q.choiceQuestion with
    | none => simp [optMap_cleanStr_comp]
    | some cq =>
      cases ho : cq.options with
      | none => simp [ho, optMap_cleanStr_comp]
      | some os => simp [ho, optMap_cleanStr_comp, optionsMap_cleanStr_idem]

theorem groupQuestions_pop_idem (qs : List GroupQuestion) :
    ((qs.map fun q => { q with questionId := none }).map
        fun q => { q with questionId := none }) =
      qs.map fun q => { q with questionId := none } := by
  rw [List.map_map]
  apply List.map_congr_left
  intro q _
  rfl

theorem cleanItem_idem (it : Item) : cleanItem (cleanItem it) = cleanItem it := by
  cases hqi : it.questionItem with
  | some qi =>
    simp [cleanItem, hqi, optMap_cleanStr_comp, optMap_cleanStr_idem, cleanQuestion_idem]
  | none =>
  cases hqg : it.questionGroupItem with
  | some g =>
    cases hqs : g.questions with
    | none =>
      cases hgr : g.grid with
      | none => simp [cleanItem, hqi, hqg, hqs, hgr, optMap_cleanStr_comp, optMap_cleanStr_idem]
      | some gr =>
        cases hcols : gr.columns with
        | none =>
          simp [cleanItem, hqi, hqg, hqs, hgr, hcols, optMap_cleanStr_comp, optMap_cleanStr_idem]
        | some cols =>
          cases hos : cols.options with
          | none =>
            simp [cleanItem, hqi, hqg, hqs, hgr, hcols, hos, optMap_cleanStr_comp,
              optMap_cleanStr_idem]
          | some os =>
            simp [cleanItem, hqi, hqg, hqs, hgr, hcols, hos, optMap_cleanStr_comp,
              optMap_cleanStr_idem, optionsMap_cleanStr_idem]
    | some qs =>
      cases hgr : g.grid with
      | none =>
        simp [cleanItem, hqi, hqg, hqs, hgr, optMap_cleanStr_comp, optMap_cleanStr_idem,
          groupQuestions_pop_idem]
      | some gr =>
        cases hcols : gr.columns with
        | none =>
          simp [cleanItem, hqi, hqg, hqs, hgr, hcols, optMap_cleanStr_comp,
            optMap_cleanStr_idem, groupQuestions_pop_idem]
        | some cols =>
          cases hos : cols.options with
          | none =>
            simp [cleanItem, hqi, hqg, hqs, hgr, hcols, hos, optMap_cleanStr_comp,
              optMap_cleanStr_idem, groupQuestions_pop_idem]
          | some os =>
            simp [cleanItem, hqi, hqg, hqs, hgr, hcols, hos, optMap_cleanStr_comp,
              optMap_cleanStr_idem, groupQuestions_pop_idem, optionsMap_cleanStr_idem]
  | none =>
  cases hpb : it.pageBreakItem with
  | some pb => simp [cleanItem, hqi, hqg, hpb, optMap_cleanStr_comp, optMap_cleanStr_idem]
  | none =>
  cases hti : it.textItem with
  | some t => simp [cleanItem, hqi, hqg, hpb, hti, optMap_cleanStr_comp, optMap_cleanStr_idem]
  | none =>
  cases him : it.imageItem with
  | some im =>
    simp [cleanItem, hqi, hqg, hpb, hti, him, optMap_cleanStr_comp, optMap_cleanStr_idem]
  | none =>
  cases hv : it.videoItem with
  | some v =>
    simp [cleanItem, hqi, hqg, hpb, hti, him, hv, optMap_cleanStr_comp, optMap_cleanStr_idem]
  | none =>
    simp [cleanItem, hqi, hqg, hpb, hti, him, hv, optMap_cleanStr_comp, optMap_cleanStr_idem]

/-! ### Claims C1, C4, C6, C7, C10 -/

/-- Claim C1, counterexample: `personalize_form` applies the mapping
`{"A": "B", "B": "C"}` to the form title `"A"` and produces `"C"`, not the
`"B"` the claim requires — the second pair re-scans the text produced by
the first. -/
theorem C1_counterexample :
    personalizeFormTitle formTitleA [("A", "B"), ("B", "C")] = "C" ∧
      personalizeFormTitle formTitleA [("A", "B"), ("B", "C")] ≠ "B" := by
  constructor
  · rfl
  · decide

/-- Claim C1 (amended): the replacement pairs are applied sequentially in
mapping order, each pair substituting over the entire text produced by the
previous pairs, so a later pair does re-scan text substituted by an earlier
pair: `{"A":"B","B":"C"}` applied to `"A"` yields `"C"`, while
`{"NAME":"Alice Bob"}` applied to `"Hi NAME, welcome"` still yields
`"Hi Alice Bob, welcome"`. -/
theorem C1_personalize_sequential_substitution :
    (∀ (ps : List (String × String)) (p : String × String) (s : String),
        applyReplacements (ps ++ [p]) s =
          pyStrReplace (applyReplacements ps s) p.1 p.2) ∧
      personalizeFormTitle formTitleA [("A", "B"), ("B", "C")] = "C" ∧
      personalizeFormTitle formTitleName [("NAME", "Alice Bob")] =
        "Hi Alice Bob, welcome" := by
  refine ⟨fun ps p s => ?_, rfl, rfl⟩
  simp [applyReplacements, List.foldl_append]

/-- Claim C4, counterexample: the sanitizer copy in the root-level
`forms_api.py` copies the item title verbatim, so an item titled
`"Line1\nLine2"` keeps its embedded newline after sanitization. -/
theorem C4_counterexample :
    itemTextFieldsClean (cleanItemLegacy newlineItem) = false := by decide

/-- Claim C4 (amended): for the sanitizer in `src/gforms/api.py`, every
text field resubmitted to the write API — item title, item description,
scale low/high labels, every choice and grid-column option value — is free
of `'\n'` and `'\r'` after sanitization, each `'\n'` being replaced by a
single space and each `'\r'` dropped outright; the root-level
`forms_api.py` sanitizer performs no such normalization. -/
theorem C4_sanitizer_newline_elimination :
    (∀ it : Item, itemTextFieldsClean (cleanItem it) = true) ∧
      ∀ s : String,
        (cleanStr s).data = (s.data.map nlToSpace).filter (fun c => !(c == '\r')) :=
  ⟨cleanItem_text_fields_clean, cleanStr_data⟩

/-- Claim C6: sanitization is idempotent — a second pass leaves the
item-kind payload (indeed the whole sanitized item) unchanged. -/
theorem C6_sanitize_idempotent (x : Item) :
    itemKindPayload (cleanItem (cleanItem x)) = itemKindPayload (cleanItem x) := by
  rw [cleanItem_idem]

/-- Claim C7: no server-assigned identifier survives sanitization — the
item identifier is gone, the root question's identifier is gone, and every
grid sub-question's identifier is gone, in both sanitizer copies. -/
theorem C7_no_identifier_fields (it : Item) :
    noIdentifiers (cleanItem it) = true ∧ noIdentifiers (cleanItemLegacy it) = true := by
  constructor
  · cases hqi : it.questionItem with
    | some qi => simp [cleanItem, cleanQuestion, hqi, noIdentifiers]
    | none =>
      cases hqg : it.questionGroupItem with
      | some g =>
        cases hqs : g.questions with
        | none => simp [cleanItem, hqi, hqg, hqs, noIdentifiers]
        | some qs => simp [cleanItem, hqi, hqg, hqs, noIdentifiers, List.all_eq_true]
      | none =>
        cases hpb : it.pageBreakItem <;> cases hti : it.textItem <;>
          cases him : it.imageItem <;> cases hv : it.videoItem <;>
          simp [cleanItem, hqi, hqg, hpb, hti, him, hv, noIdentifiers]
  · cases hqi : it.questionItem with
    | some qi => simp [cleanItemLegacy, hqi, noIdentifiers]
    | none =>
      cases hqg : it.questionGroupItem with
      | some g =>
        cases hqs : g.questions with
        | none => simp [cleanItemLegacy, hqi, hqg, hqs, noIdentifiers]
        | some qs => simp [cleanItemLegacy, hqi, hqg, hqs, noIdentifiers, List.all_eq_true]
      | none =>
        cases hpb : it.pageBreakItem <;> cases hti : it.textItem <;>
          cases him : it.imageItem <;> cases hv : it.videoItem <;>
          simp [cleanItemLegacy, hqi, hqg, hpb, hti, him, hv, noIdentifiers]

/-- Claim C10: with an empty response list, `export_responses_csv` returns
exactly an empty CSV string and row count 0 — no header row is built, even
when the form has question items. -/
theorem C10_empty_responses_empty_csv (form : Form) (ts em : Bool) :
    exportResponsesCsv form [] ts em = ("", 0) := rfl

theorem createItemReqs_length (items : List Item) :
    ∀ i, (createItemReqs i items).length = items.length := by
  induction items with
  | nil => intro i; rfl
  | cons it rest ih => intro i; simp [createItemReqs, ih]

theorem settingsOps_append (l₁ l₂ : List BatchRequest) :
    settingsOps (l₁ ++ l₂) = settingsOps l₁ ++ settingsOps l₂ :=
  List.filterMap_append l₁ l₂ _

theorem createItemOps_append (l₁ l₂ : List BatchRequest) :
    createItemOps (l₁ ++ l₂) = createItemOps l₁ ++ createItemOps l₂ :=
  List.filterMap_append l₁ l₂ _

theorem batchUpdatesOf_append (l₁ l₂ : List RemoteCall) :
    batchUpdatesOf (l₁ ++ l₂) = batchUpdatesOf l₁ ++ batchUpdatesOf l₂ :=
  List.filterMap_append l₁ l₂ _

theorem countCreateItems_append (l₁ l₂ : List BatchRequest) :
    countCreateItems (l₁ ++ l₂) = countCreateItems l₁ + countCreateItems l₂ := by
  simp [countCreateItems, List.filter_append]

theorem settingsOps_createItemReqs (items : List Item) :
    ∀ i, settingsOps (createItemReqs i items) = [] := by
  induction items with
  | nil => intro i; rfl
  | cons it rest ih =>
    intro i
    have := ih (i + 1)
    unfold settingsOps at this ⊢
    simp only [createItemReqs, List.filterMap_cons]
    exact this

theorem createItemOps_createItemReqs (items : List Item) :
    ∀ i, createItemOps (createItemReqs i items) = indexedOps cleanItem items i := by
  induction items with
  | nil => intro i; rfl
  | cons it rest ih =>
    intro i
    simp [createItemReqs, createItemOps, List.filterMap_cons, indexedOps]
    exact ih i.succ

theorem countCreateItems_createItemReqs (items : List Item) :
    ∀ i, countCreateItems (createItemReqs i items) = items.length := by
  induction items with
  | nil => intro i; rfl
  | cons it rest ih =>
    intro i
    simp [createItemReqs, countCreateItems, List.filter_cons]
    have := ih i.succ
    simp [countCreateItems] at this
    simp [this]

theorem createItemOps_flatten (ls : List (List BatchRequest)) :
    (ls.map createItemOps).flatten = createItemOps ls.flatten := by
  induction ls with
  | nil => rfl
  | cons c cs ih => simp [createItemOps_append, ih]

theorem countCreateItems_flatten (ls : List (List BatchRequest)) :
    (ls.map countCreateItems).sum = countCreateItems ls.flatten := by
  induction ls with
  | nil => rfl
  | cons c cs ih => simp [countCreateItems_append, ih]

theorem batchUpdatesOf_map_batchUpdate (nid : String) (chunks : List (List BatchRequest)) :
    batchUpdatesOf (chunks.map (RemoteCall.batchUpdate nid)) = chunks := by
  induction chunks with
  | nil => rfl
  | cons c cs ih => simp [batchUpdatesOf, List.filterMap_cons] at ih ⊢; exact ih

theorem buildBatchRequests_length (original : Form) :
    (buildBatchRequests original).length =
      (settingsRequests original).length + (original.items.getD []).length := by
  simp [buildBatchRequests, createItemReqs_length]

theorem createItemOps_buildBatchRequests (original : Form) :
    createItemOps (buildBatchRequests original) =
      indexedOps cleanItem (original.items.getD []) 0 := by
  rw [buildBatchRequests, createItemOps_append, createItemOps_createItemReqs]
  cases h : original.settings <;> simp [settingsRequests, h, createItemOps]

theorem countCreateItems_buildBatchRequests (original : Form) :
    countCreateItems (buildBatchRequests original) = (original.items.getD []).length := by
  rw [buildBatchRequests, countCreateItems_append, countCreateItems_createItemReqs]
  cases h : original.settings <;> simp [settingsRequests, h, countCreateItems]

theorem chunksGo_fuel_invariant (m : Nat) :
    ∀ (f₁ : Nat) (l : List α) (f₂ : Nat), l.length ≤ f₁ → l.length ≤ f₂ →
      chunksGo (m + 1) f₁ l = chunksGo (m + 1) f₂ l := by
  intro f₁
  induction f₁ with
  | zero =>
    intro l f₂ h1 h2
    have : l = [] := List.length_eq_zero.mp (Nat.le_zero.mp h1)
    subst this
    cases f₂ <;> rfl
  | succ g ih =>
    intro l f₂ h1 h2
    cases l with
    | nil => cases f₂ <;> rfl
    | cons c rest =>
      cases f₂ with
      | zero => simp at h2
      | succ g₂ =>
        simp only [chunksGo]
        congr 1
        have hr1 : rest.length ≤ g := Nat.succ_le_succ_iff.mp h1
        have hr2 : rest.length ≤ g₂ := Nat.succ_le_succ_iff.mp h2
        apply ih
        · simp only [List.length_drop]; omega
        · simp only [List.length_drop]; omega

theorem chunksOf_cons (m : Nat) (c : α) (rest : List α) :
    chunksOf (m + 1) (c :: rest) =
      (c :: rest).take (m + 1) :: chunksOf (m + 1) (rest.drop m) := by
  show chunksGo (m + 1) (rest.length + 1) (c :: rest) = _
  simp only [chunksGo]
  congr 1
  apply chunksGo_fuel_invariant
  · simp only [List.length_drop]; omega
  · exact Nat.le_refl _

theorem chunksOf_flatten (n : Nat) :
    ∀ (k : Nat) (l : List α), l.length ≤ k → (chunksOf (n + 1) l).flatten = l := by
  intro k
  induction k with
  | zero =>
    intro l hl
    have : l = [] := List.length_eq_zero.mp (Nat.le_zero.mp hl)
    subst this; rfl
  | succ k ih =>
    intro l hl
    cases l with
    | nil => rfl
    | cons c rest =>
      rw [chunksOf_cons]
      have hrest : (rest.drop n).length ≤ k := by
        simp only [List.length_drop]
        have : rest.length ≤ k := Nat.succ_le_succ_iff.mp hl
        omega
      simp only [List.flatten_cons, ih (rest.drop n) hrest]
      calc (c :: rest).take (n + 1) ++ rest.drop n
          = c :: (rest.take n ++ rest.drop n) := by simp
        _ = c :: rest := by rw [List.take_append_drop]

theorem chunksOf_length (n : Nat) :
    ∀ (k : Nat) (l : List α), l.length ≤ k →
      (chunksOf (n + 1) l).length = (l.length + n) / (n + 1) := by
  intro k
  induction k with
  | zero =>
    intro l hl
    have : l = [] := List.length_eq_zero.mp (Nat.le_zero.mp hl)
    subst this
    have hz : (chunksOf (n + 1) ([] : List α)) = [] := rfl
    rw [hz]
    have hd : n / (n + 1) = 0 := Nat.div_eq_of_lt (by omega)
    simp [hd]
  | succ k ih =>
    intro l hl
    cases l with
    | nil =>
      have hz : (chunksOf (n + 1) ([] : List α)) = [] := rfl
      rw [hz]
      have hd : n / (n + 1) = 0 := Nat.div_eq_of_lt (by omega)
      simp [hd]
    | cons c rest =>
      rw [chunksOf_cons]
      have hrest : (rest.drop n).length ≤ k := by
        simp only [List.length_drop]
        have : rest.length ≤ k := Nat.succ_le_succ_iff.mp hl
        omega
      rw [List.length_cons, ih (rest.drop n) hrest]
      simp only [List.length_drop, List.length_cons]
      rcases Nat.le_total rest.length n with hle | hge
      · have h1 : rest.length - n = 0 := Nat.sub_eq_zero_of_le hle
        have h2 : (0 + n) / (n + 1) = 0 := Nat.div_eq_of_lt (by omega)
        have h3 : (rest.length + 1 + n) / (n + 1) = 1 :=
          Nat.div_eq_of_lt_le (by omega) (by omega)
        rw [h1, h2, h3]
      · have h1 : rest.length - n + n = rest.length := Nat.sub_add_cancel hge
        have h3 : (rest.length + 1 + n) / (n + 1) = rest.length / (n + 1) + 1 := by
          have he : rest.length + 1 + n = rest.length + (n + 1) := by omega
          rw [he, Nat.add_div_right _ (Nat.succ_pos n)]
        rw [h1, h3]

theorem runChunksAux_noFail (nid : String) :
    ∀ (chunks : List (List BatchRequest)) (idx : Nat),
      runChunksAux nid noFail chunks idx =
        (Except.ok (chunks.length, (chunks.map countCreateItems).sum),
          chunks.map (RemoteCall.batchUpdate nid)) := by
  intro chunks
  induction chunks with
  | nil => intro idx; rfl
  | cons c cs ih =>
    intro idx
    simp only [runChunksAux, noFail, Bool.false_eq_true, if_false, ih (idx + 1),
      List.map_cons, List.length_cons, List.sum_cons]
    simp [Nat.add_comm]

theorem runChunksAux_fail (nid : String) (fails : Nat → Bool) :
    ∀ (chunks : List (List BatchRequest)) (idx n : Nat),
      n < chunks.length → fails (idx + n) = true → (∀ m, m < n → fails (idx + m) = false) →
      runChunksAux nid fails chunks idx =
        (Except.error ("Failed to duplicate chunk " ++ toString (idx + n + 1)),
          (chunks.take (n + 1)).map (RemoteCall.batchUpdate nid)) := by
  intro chunks
  induction chunks with
  | nil => intro idx n hn; simp at hn
  | cons c cs ih =>
    intro idx n hn hfail hprev
    cases n with
    | zero =>
      have h0 : fails idx = true := by simpa using hfail
      simp [runChunksAux, h0]
    | succ m =>
      have h0 : fails idx = false := by simpa using hprev 0 (Nat.succ_pos m)
      have hm : m < cs.length := by simpa [Nat.succ_lt_succ_iff] using hn
      have hfail' : fails (idx + 1 + m) = true := by
        have : idx + 1 + m = idx + (m + 1) := by omega
        rw [this]; exact hfail
      have hprev' : ∀ j, j < m → fails (idx + 1 + j) = false := by
        intro j hj
        have : idx + 1 + j = idx + (j + 1) := by omega
        rw [this]
        exact hprev (j + 1) (Nat.succ_lt_succ hj)
      have hrec := ih (idx + 1) m hm hfail' hprev'
      simp only [runChunksAux, h0, Bool.false_eq_true, if_false, hrec]
      have harith : idx + 1 + m + 1 = idx + (m + 1) + 1 := by omega
      simp [harith]

theorem itemByItemLoop_noFail (clean : Item → Item) (nid : String) :
    ∀ (items : List Item) (i : Nat),
      itemByItemLoop clean nid noFail items i =
        (items.length, items.length, itemCalls clean nid items i) := by
  intro items
  induction items with
  | nil => intro i; rfl
  | cons it rest ih =>
    intro i
    simp [itemByItemLoop, noFail, ih (i + 1), itemCalls]

theorem createItemOpsOfLog_itemCalls (clean : Item → Item) (nid : String) :
    ∀ (items : List Item) (i : Nat),
      createItemOpsOfLog (itemCalls clean nid items i) = indexedOps clean items i := by
  intro items
  induction items with
  | nil => intro i; rfl
  | cons it rest ih =>
    intro i
    simp only [itemCalls, createItemOpsOfLog, batchUpdatesOf, List.filterMap_cons] at ih ⊢
    simp only [List.map_cons, List.flatten_cons, ih (i + 1)]
    rfl

theorem settingsOpsOfLog_itemCalls (clean : Item → Item) (nid : String) :
    ∀ (items : List Item) (i : Nat),
      settingsOpsOfLog (itemCalls clean nid items i) = [] := by
  intro items
  induction items with
  | nil => intro i; rfl
  | cons it rest ih =>
    intro i
    simp only [itemCalls, settingsOpsOfLog, batchUpdatesOf, List.filterMap_cons] at ih ⊢
    simp only [List.map_cons, List.flatten_cons, ih (i + 1)]
    rfl

theorem indexedOps_length (clean : Item → Item) :
    ∀ (items : List Item) (i : Nat), (indexedOps clean items i).length = items.length := by
  intro items
  induction items with
  | nil => intro i; rfl
  | cons it rest ih => intro i; simp [indexedOps, ih (i + 1)]

theorem duplicationChunks_flatten (original : Form) (cs : Nat) (hcs : 0 < cs)
    (hbig : cs < (buildBatchRequests original).length) :
    (duplicationChunks original cs).flatten = buildBatchRequests original := by
  obtain ⟨m, rfl⟩ : ∃ m, cs = m + 1 := ⟨cs - 1, by omega⟩
  cases hset : original.settings with
  | none =>
    simp only [duplicationChunks, hset]
    exact chunksOf_flatten m _ _ (Nat.le_refl _)
  | some s =>
    have hlen : 0 < ((buildBatchRequests original).drop 1).length := by
      simp only [List.length_drop]
      omega
    cases hdrop : (buildBatchRequests original).drop 1 with
    | nil => rw [hdrop] at hlen; simp at hlen
    | cons a rest =>
      simp only [duplicationChunks, hset, hdrop, chunksOf_cons]
      simp only [List.flatten_cons]
      have hfl := chunksOf_flatten m (rest.drop m).length (rest.drop m) (Nat.le_refl _)
      rw [hfl]
      have hsplit : (a :: rest).take (m + 1) ++ rest.drop m = a :: rest := by
        simp only [List.take_succ_cons, List.cons_append, List.cons.injEq, true_and]
        exact List.take_append_drop m rest
      rw [List.append_assoc, hsplit, ← hdrop]
      exact List.take_append_drop 1 (buildBatchRequests original)

theorem duplicationChunks_length (original : Form) (cs : Nat) (hcs : 0 < cs)
    (hbig : cs < (buildBatchRequests original).length) :
    (duplicationChunks original cs).length =
      ((original.items.getD []).length + cs - 1) / cs := by
  obtain ⟨m, rfl⟩ : ∃ m, cs = m + 1 := ⟨cs - 1, by omega⟩
  have hM : ((original.items.getD []).length + (m + 1) - 1) =
      (original.items.getD []).length + m := by omega
  rw [hM]
  cases hset : original.settings with
  | none =>
    have hlen : (buildBatchRequests original).length = (original.items.getD []).length := by
      rw [buildBatchRequests_length]
      simp [settingsRequests, hset]
    simp only [duplicationChunks, hset]
    rw [chunksOf_length m _ _ (Nat.le_refl _), hlen]
  | some s =>
    have hlen : ((buildBatchRequests original).drop 1).length =
        (original.items.getD []).length := by
      simp only [List.length_drop]
      rw [buildBatchRequests_length]
      simp [settingsRequests, hset]
    have hlen0 : 0 < ((buildBatchRequests original).drop 1).length := by
      simp only [List.length_drop]
      omega
    cases hdrop : (buildBatchRequests original).drop 1 with
    | nil => rw [hdrop] at hlen0; simp at hlen0
    | cons a rest =>
      simp only [duplicationChunks, hset, hdrop, chunksOf_cons]
      rw [hdrop] at hlen
      simp only [List.length_cons]
      have := chunksOf_length m (rest.drop m).length (rest.drop m) (Nat.le_refl _)
      rw [this]
      simp only [List.length_drop]
      rw [← hlen]
      simp only [List.length_cons]
      rcases Nat.le_total rest.length m with hle | hge
      · have h1 : rest.length - m = 0 := Nat.sub_eq_zero_of_le hle
        have h2 : m / (m + 1) = 0 := Nat.div_eq_of_lt (by omega)
        have h3 : (rest.length + 1 + m) / (m + 1) = 1 :=
          Nat.div_eq_of_lt_le (by omega) (by omega)
        rw [h1]
        simpa [h2] using h3.symm
      · have h1 : rest.length - m + m = rest.length := Nat.sub_add_cancel hge
        have h3 : (rest.length + 1 + m) / (m + 1) = rest.length / (m + 1) + 1 := by
          have he : rest.length + 1 + m = rest.length + (m + 1) := by omega
          rw [he, Nat.add_div_right _ (Nat.succ_pos m)]
        rw [h1, h3]

theorem createItemOpsOfLog_append (l₁ l₂ : List RemoteCall) :
    createItemOpsOfLog (l₁ ++ l₂) = createItemOpsOfLog l₁ ++ createItemOpsOfLog l₂ := by
  simp [createItemOpsOfLog, batchUpdatesOf_append]

theorem settingsOpsOfLog_append (l₁ l₂ : List RemoteCall) :
    settingsOpsOfLog (l₁ ++ l₂) = settingsOpsOfLog l₁ ++ settingsOpsOfLog l₂ := by
  simp [settingsOpsOfLog, batchUpdatesOf_append]

theorem duplicateFormBatch_noFail_log (original : Form) (fid nid t : String) (cs : Nat) :
    batchUpdatesOf (duplicateFormBatch original fid nid t cs noFail).2 =
      if buildBatchRequests original = [] then []
      else if (buildBatchRequests original).length ≤ cs then [buildBatchRequests original]
      else duplicationChunks original cs := by
  by_cases h0 : buildBatchRequests original = []
  · simp [duplicateFormBatch, h0, batchUpdatesOf]
  · have h0' : (buildBatchRequests original).isEmpty = false := by
      simpa [List.isEmpty_iff] using h0
    by_cases h1 : (buildBatchRequests original).length ≤ cs
    · simp [duplicateFormBatch, h0, h0', h1, noFail, batchUpdatesOf_append, batchUpdatesOf]
    · have hrun := runChunksAux_noFail nid (duplicationChunks original cs) 0
      simp only [duplicateFormBatch, h0', Bool.false_eq_true, if_false, h1, if_true, hrun]
      rw [if_neg h0, batchUpdatesOf_append]
      have hbase : batchUpdatesOf [RemoteCall.getForm fid, RemoteCall.createForm t
          ((original.info.bind FormInfo.description).getD "")] = [] := rfl
      rw [hbase, List.nil_append]
      exact batchUpdatesOf_map_batchUpdate nid _

theorem duplicateFormBatch_noFail_result (original : Form) (fid nid t : String) (cs : Nat)
    (hcs : 0 < cs) :
    (duplicateFormBatch original fid nid t cs noFail).1.toOption.map
        (fun r => (r.copiedItems, r.totalItems)) =
      some ((original.items.getD []).length, (original.items.getD []).length) := by
  by_cases h0 : buildBatchRequests original = []
  · have hM : (original.items.getD []).length = 0 := by
      have := buildBatchRequests_length original
      rw [h0] at this
      simp at this
      omega
    simp [duplicateFormBatch, h0, hM, Except.toOption]
  · have h0' : (buildBatchRequests original).isEmpty = false := by
      simpa [List.isEmpty_iff] using h0
    by_cases h1 : (buildBatchRequests original).length ≤ cs
    · simp [duplicateFormBatch, h0', h1, noFail, Except.toOption]
    · have hbig : cs < (buildBatchRequests original).length := Nat.lt_of_not_le h1
      have hcopied : ((duplicationChunks original cs).map countCreateItems).sum =
          (original.items.getD []).length := by
        rw [countCreateItems_flatten, duplicationChunks_flatten original cs hcs hbig,
          countCreateItems_buildBatchRequests]
      simp [duplicateFormBatch, h0', h1, runChunksAux_noFail, hcopied, Except.toOption]

theorem duplicateFormBatch_noFail_ops (original : Form) (fid nid t : String) (cs : Nat)
    (hcs : 0 < cs) :
    createItemOpsOfLog (duplicateFormBatch original fid nid t cs noFail).2 =
      indexedOps cleanItem (original.items.getD []) 0 := by
  have hlog := duplicateFormBatch_noFail_log original fid nid t cs
  rw [createItemOpsOfLog, hlog]
  by_cases h0 : buildBatchRequests original = []
  · have : createItemReqs 0 (original.items.getD []) = [] := by
      rcases List.append_eq_nil.mp (by rw [← buildBatchRequests]; exact h0) with ⟨_, h⟩
      exact h
    have hM : (original.items.getD []) = [] := by
      have := congrArg List.length this
      rw [createItemReqs_length] at this
      exact List.length_eq_zero.mp this
    simp [h0, hM, indexedOps]
  · by_cases h1 : (buildBatchRequests original).length ≤ cs
    · simp only [h0, if_false, h1, if_true, List.map_cons, List.map_nil, List.flatten_cons,
        List.flatten_nil, List.append_nil]
      exact createItemOps_buildBatchRequests original
    · have hbig : cs < (buildBatchRequests original).length := Nat.lt_of_not_le h1
      simp only [h0, if_false, h1]
      rw [createItemOps_flatten, duplicationChunks_flatten original cs hcs hbig]
      exact createItemOps_buildBatchRequests original

theorem duplicateFormLegacy_noFail_result (original : Form) (fid nid t : String) :
    (duplicateFormLegacy original fid nid t noFail).1.toOption.map
        (fun r => (r.copiedItems, r.totalItems)) =
      some ((original.items.getD []).length, (original.items.getD []).length) := by
  simp [duplicateFormLegacy, itemByItemLoop_noFail, Except.toOption]

theorem duplicateFormLegacy_noFail_ops (original : Form) (fid nid t : String) :
    createItemOpsOfLog (duplicateFormLegacy original fid nid t noFail).2 =
      indexedOps cleanItem (original.items.getD []) 0 := by
  simp only [duplicateFormLegacy, itemByItemLoop_noFail]
  rw [createItemOpsOfLog_append, createItemOpsOfLog_append,
    createItemOpsOfLog_itemCalls]
  have hbase : createItemOpsOfLog [RemoteCall.getForm fid, RemoteCall.createForm t
      ((original.info.bind FormInfo.description).getD "")] = [] := rfl
  rw [hbase]
  cases hset : original.settings <;>
    simp [createItemOpsOfLog, batchUpdatesOf, createItemOps, List.filterMap_cons]

theorem duplicateFormLegacy_noFail_settingsOps (original : Form) (s : Settings)
    (fid nid t : String) (h : original.settings = some s) :
    settingsOpsOfLog (duplicateFormLegacy original fid nid t noFail).2 =
      [ensureQuizSettings s] := by
  simp only [duplicateFormLegacy, itemByItemLoop_noFail, h]
  rw [settingsOpsOfLog_append, settingsOpsOfLog_append, settingsOpsOfLog_itemCalls]
  have hbase : settingsOpsOfLog [RemoteCall.getForm fid, RemoteCall.createForm t
      ((original.info.bind FormInfo.description).getD "")] = [] := rfl
  rw [hbase]
  simp [settingsOpsOfLog, batchUpdatesOf, settingsOps, List.filterMap_cons]

/-! ### Claims C2, C3, C5, C8, C9 -/

/-- Claim C2, counterexample: for a source with 2 items and a settings
block at `chunkSize = 2`, the engine issues a single batched call carrying
3 operations (the settings-replace is prepended to the first full item
chunk), whereas the claim demands `ceil((2+1)/2) = 2` calls of at most 2
operations each. -/
theorem C2_counterexample :
    (batchUpdatesOf (duplicateFormBatch formTwoItemsWithSettings "src" "dst" "Copy" 2
        noFail).2).map List.length = [3] ∧
      (batchUpdatesOf (duplicateFormBatch formTwoItemsWithSettings "src" "dst" "Copy" 2
        noFail).2).length ≠ (2 + 1 + 2 - 1) / 2 := by
  constructor
  · rfl
  · decide

/-- Claim C2 (amended): with `M` items and `has = 1` iff a settings block
exists, a no-failure batch duplication issues no batched call when
`M + has = 0`, one call when `0 < M + has ≤ chunkSize`, and otherwise
`ceil(M / chunkSize)` calls — not `ceil((M + has)/chunkSize)` — because the
settings-replace is prepended to the first item chunk, which then carries
`chunkSize + 1` operations; the settings-replace always opens the first
batched call. -/
theorem C2_chunk_count (original : Form) (fid nid t : String) (cs : Nat) (hcs : 0 < cs) :
    ((batchUpdatesOf (duplicateFormBatch original fid nid t cs noFail).2).length =
      (if (settingsRequests original).length + (original.items.getD []).length = 0 then 0
       else if (settingsRequests original).length + (original.items.getD []).length ≤ cs
       then 1
       else ((original.items.getD []).length + cs - 1) / cs)) ∧
    (∀ s, original.settings = some s →
      ∀ first rest,
        batchUpdatesOf (duplicateFormBatch original fid nid t cs noFail).2 = first :: rest →
        first.head? = some (.updateSettings (ensureQuizSettings s) "*")) := by
  have hlog := duplicateFormBatch_noFail_log original fid nid t cs
  have hlen := buildBatchRequests_length original
  constructor
  · rw [hlog]
    by_cases h0 : buildBatchRequests original = []
    · have hz : (settingsRequests original).length + (original.items.getD []).length = 0 := by
        rw [← hlen, h0]; rfl
      simp [h0, hz]
    · have hne : (settingsRequests original).length + (original.items.getD []).length ≠ 0 := by
        rw [← hlen]
        exact fun h => h0 (List.length_eq_zero.mp h)
      rw [if_neg h0]
      by_cases h1 : (buildBatchRequests original).length ≤ cs
      · have h1' : (settingsRequests original).length +
            (original.items.getD []).length ≤ cs := by
          rw [← hlen]; exact h1
        rw [if_pos h1, if_neg hne, if_pos h1']
        rfl
      · have hbig : cs < (buildBatchRequests original).length := Nat.lt_of_not_le h1
        have h1' : ¬ ((settingsRequests original).length +
            (original.items.getD []).length ≤ cs) := by
          rw [← hlen]; exact h1
        rw [if_neg h1, if_neg hne, if_neg h1']
        exact duplicationChunks_length original cs hcs hbig
  · intro s hset first rest hcons
    rw [hlog] at hcons
    have hhead : (buildBatchRequests original).head? =
        some (.updateSettings (ensureQuizSettings s) "*") := by
      simp [buildBatchRequests, settingsRequests, hset]
    by_cases h0 : buildBatchRequests original = []
    · simp [h0] at hcons
    · by_cases h1 : (buildBatchRequests original).length ≤ cs
      · simp only [h0, if_false, h1, if_true] at hcons
        have : first = buildBatchRequests original := ((List.cons.injEq _ _ _ _ ▸ hcons).1).symm
        rw [this]; exact hhead
      · have hbig : cs < (buildBatchRequests original).length := Nat.lt_of_not_le h1
        simp only [h0, if_false, h1] at hcons
        obtain ⟨m, hm⟩ : ∃ m, cs = m + 1 := ⟨cs - 1, by omega⟩
        have hlen1 : 0 < ((buildBatchRequests original).drop 1).length := by
          simp only [List.length_drop]; omega
        cases hdrop : (buildBatchRequests original).drop 1 with
        | nil => rw [hdrop] at hlen1; simp at hlen1
        | cons a rest' =>
          rw [hm] at hcons
          simp only [duplicationChunks, hset, hdrop, chunksOf_cons] at hcons
          have hfirst : first = (buildBatchRequests original).take 1 ++
              (a :: rest').take (m + 1) := ((List.cons.injEq _ _ _ _ ▸ hcons).1).symm
          have htake : (buildBatchRequests original).take 1 =
              [BatchRequest.updateSettings (ensureQuizSettings s) "*"] := by
            simp [buildBatchRequests, settingsRequests, hset]
          rw [hfirst, htake]
          rfl

/-- Claim C3, counterexample: with 5 items at `chunkSize = 2` (3 chunks)
and the second batched call failing, the engine raises
`"Failed to duplicate chunk 2"` to the caller — it returns no
`DuplicationResult` at all — and only 2 of the 3 chunk calls are issued. -/
theorem C3_counterexample :
    (duplicateFormBatch formFiveItems "src" "dst" "Copy" 2 failSecondChunk).1 =
      Except.error "Failed to duplicate chunk 2" ∧
      (batchUpdatesOf (duplicateFormBatch formFiveItems "src" "dst" "Copy" 2
        failSecondChunk).2).length = 2 := by
  constructor
  · rfl
  · rfl

/-- Claim C3 (amended): when the first failing chunk is chunk `n` (0-based)
of a chunked run, the chunks after it are not submitted and the engine
raises an exception naming chunk `n + 1` to the caller instead of returning
a `DuplicationResult`; the count of items committed by the earlier chunks
is accumulated internally but discarded by the raise. -/
theorem C3_chunk_failure_raises (original : Form) (fid nid t : String) (cs n : Nat)
    (fails : Nat → Bool) (hcs : 0 < cs)
    (hbig : cs < (buildBatchRequests original).length)
    (hn : n < (duplicationChunks original cs).length)
    (hfail : fails n = true) (hprev : ∀ m, m < n → fails m = false) :
    (duplicateFormBatch original fid nid t cs fails).1 =
      Except.error ("Failed to duplicate chunk " ++ toString (n + 1)) ∧
      (batchUpdatesOf (duplicateFormBatch original fid nid t cs fails).2).length = n + 1 := by
  have h0' : (buildBatchRequests original).isEmpty = false := by
    have : buildBatchRequests original ≠ [] := by
      intro h
      rw [h] at hbig
      simp at hbig
    simpa [List.isEmpty_iff] using this
  have h1 : ¬ (buildBatchRequests original).length ≤ cs := Nat.not_le_of_lt hbig
  have hrun := runChunksAux_fail nid fails (duplicationChunks original cs) 0 n
    hn (by simpa using hfail) (by intro m hm; simpa using hprev m hm)
  constructor
  · simp [duplicateFormBatch, h0', h1, hrun]
  · simp only [duplicateFormBatch, h0', Bool.false_eq_true, if_false, h1, if_true, hrun]
    rw [batchUpdatesOf_append]
    have hbase : batchUpdatesOf [RemoteCall.getForm fid, RemoteCall.createForm t
        ((original.info.bind FormInfo.description).getD "")] = [] := rfl
    rw [hbase]
    simp only [List.nil_append, batchUpdatesOf_map_batchUpdate, List.length_take]
    omega

/-- Claim C3 witness: the amended statement holds at the concrete 5-item
form, `chunkSize = 2`, with the second chunk failing. -/
theorem C3_chunk_failure_raises_witness :
    (duplicateFormBatch formFiveItems "src" "dst" "Copy" 2 failSecondChunk).1 =
      Except.error ("Failed to duplicate chunk " ++ toString (1 + 1)) ∧
      (batchUpdatesOf (duplicateFormBatch formFiveItems "src" "dst" "Copy" 2
        failSecondChunk).2).length = 1 + 1 :=
  C3_chunk_failure_raises formFiveItems "src" "dst" "Copy" 2 1 failSecondChunk
    (by decide) (by decide) (by decide) (by decide)
    (by intro m hm; have : m = 0 := by omega
        subst this; rfl)

/-- Claim C5, counterexample: the root-level `forms_api.py` duplication
engine submits the source settings verbatim with a wildcard update mask:
for a source whose settings block lacks a quiz flag, the submitted settings
carry no `quizSettings.isQuiz`. -/
theorem C5_counterexample :
    settingsOpsOfLog (duplicateFormRoot formSettingsNoQuiz "src" "dst" "Copy" noFail).2 =
      [settingsNoQuiz] ∧
      settingsNoQuiz.quizSettings.isSome = false := by
  constructor
  · rfl
  · rfl

/-- Claim C5 (amended): in the gforms engine (`src/gforms/api.py`), both
the batch path's operation list and the legacy path's settings call carry
`ensureQuizSettings s` — settings with an explicit `quizSettings` block,
defaulted to `isQuiz = false` exactly when the source settings lacked one;
the root-level `forms_api.py` engine submits the source settings verbatim
without this default. -/
theorem C5_gforms_settings_quiz_flag (original : Form) (s : Settings) (fid nid t : String)
    (h : original.settings = some s) :
    settingsOps (buildBatchRequests original) = [ensureQuizSettings s] ∧
      settingsOpsOfLog (duplicateFormLegacy original fid nid t noFail).2 =
        [ensureQuizSettings s] ∧
      (ensureQuizSettings s).quizSettings.isSome = true ∧
      (s.quizSettings = none →
        ensureQuizSettings s = { s with quizSettings := some { isQuiz := false } }) := by
  refine ⟨?_, duplicateFormLegacy_noFail_settingsOps original s fid nid t h, ?_, ?_⟩
  · rw [buildBatchRequests, settingsOps_append, settingsOps_createItemReqs]
    simp [settingsRequests, h, settingsOps]
  · cases hq : s.quizSettings <;> simp [ensureQuizSettings, hq]
  · intro hq
    simp [ensureQuizSettings, hq]

/-- Claim C5 witness: the amended statement holds at a concrete source form
whose settings block lacks a quiz flag. -/
theorem C5_gforms_settings_quiz_flag_witness :
    settingsOps (buildBatchRequests formSettingsNoQuiz) = [ensureQuizSettings settingsNoQuiz] ∧
      settingsOpsOfLog (duplicateFormLegacy formSettingsNoQuiz "src" "dst" "Copy" noFail).2 =
        [ensureQuizSettings settingsNoQuiz] ∧
      (ensureQuizSettings settingsNoQuiz).quizSettings.isSome = true ∧
      (settingsNoQuiz.quizSettings = none →
        ensureQuizSettings settingsNoQuiz =
          { settingsNoQuiz with quizSettings := some { isQuiz := false } }) :=
  C5_gforms_settings_quiz_flag formSettingsNoQuiz settingsNoQuiz "src" "dst" "Copy" rfl

/-- Claim C8, counterexample: duplicating a zero-item source that has a
settings block issues one batched (settings-only) call — 3 engine-counted
remote calls, not 2 — while the destination still receives zero items. -/
theorem C8_counterexample :
    (duplicateFormBatch formEmptyWithSettings "src" "dst" "Copy" 100 noFail).1 =
      Except.ok (emptyDupResult "dst" 3) ∧
      (batchUpdatesOf (duplicateFormBatch formEmptyWithSettings "src" "dst" "Copy" 100
        noFail).2).length = 1 := by
  constructor
  · rfl
  · rfl

/-- Claim C8 (amended): duplicating a zero-item source yields zero copied
items in every case; it uses exactly 2 remote calls and no batched call
precisely when the source also has no settings block, while a source with a
settings block triggers one batched settings-only call (3 calls total)
carrying no item-creation operation. -/
theorem C8_empty_form_duplication (original : Form) (fid nid t : String) (cs : Nat)
    (hcs : 0 < cs) (hempty : original.items.getD [] = []) :
    (original.settings = none →
      (duplicateFormBatch original fid nid t cs noFail).1 =
        Except.ok (emptyDupResult nid 2) ∧
      batchUpdatesOf (duplicateFormBatch original fid nid t cs noFail).2 = []) ∧
    (∀ s, original.settings = some s →
      (duplicateFormBatch original fid nid t cs noFail).1 =
        Except.ok (emptyDupResult nid 3) ∧
      createItemOpsOfLog (duplicateFormBatch original fid nid t cs noFail).2 = []) := by
  constructor
  · intro hset
    have hreqs : buildBatchRequests original = [] := by
      simp [buildBatchRequests, settingsRequests, hset, hempty, createItemReqs]
    constructor
    · simp [duplicateFormBatch, hreqs, hempty, emptyDupResult]
    · simp [duplicateFormBatch, hreqs, batchUpdatesOf]
  · intro s hset
    have hreqs : buildBatchRequests original =
        [.updateSettings (ensureQuizSettings s) "*"] := by
      simp [buildBatchRequests, settingsRequests, hset, hempty, createItemReqs]
    have h1cs : 1 ≤ cs := hcs
    constructor
    · simp [duplicateFormBatch, hreqs, hempty, h1cs, noFail, emptyDupResult]
    · simp [duplicateFormBatch, hreqs, hempty, h1cs, noFail, createItemOpsOfLog,
        batchUpdatesOf, List.filterMap_cons, createItemOps]

/-- Claim C8 witness: the amended statement holds at concrete zero-item
forms with and without a settings block. -/
theorem C8_empty_form_duplication_witness :
    ((formEmptyNoSettings.settings = none →
      (duplicateFormBatch formEmptyNoSettings "src" "dst" "Copy" 100 noFail).1 =
        Except.ok (emptyDupResult "dst" 2) ∧
      batchUpdatesOf (duplicateFormBatch formEmptyNoSettings "src" "dst" "Copy" 100
        noFail).2 = []) ∧
    (∀ s, formEmptyNoSettings.settings = some s →
      (duplicateFormBatch formEmptyNoSettings "src" "dst" "Copy" 100 noFail).1 =
        Except.ok (emptyDupResult "dst" 3) ∧
      createItemOpsOfLog (duplicateFormBatch formEmptyNoSettings "src" "dst" "Copy" 100
        noFail).2 = [])) :=
  C8_empty_form_duplication formEmptyNoSettings "src" "dst" "Copy" 100 (by decide) rfl

/-- Claim C9: with no remote failures, the batched path (any positive
`chunkSize`) and the sequential legacy path submit exactly the same ordered
sequence of sanitized `createItem` payloads at the same target indices, and
both report the same `copiedItems` and `totalItems`. -/
theorem C9_batch_legacy_equivalence (original : Form) (fid nid t : String) (cs : Nat)
    (hcs : 0 < cs) :
    createItemOpsOfLog (duplicateFormBatch original fid nid t cs noFail).2 =
      createItemOpsOfLog (duplicateFormLegacy original fid nid t noFail).2 ∧
      (duplicateFormBatch original fid nid t cs noFail).1.toOption.map
          (fun r => (r.copiedItems, r.totalItems)) =
        (duplicateFormLegacy original fid nid t noFail).1.toOption.map
          (fun r => (r.copiedItems, r.totalItems)) ∧
      (duplicateFormBatch original fid nid t cs noFail).1.toOption.isSome = true := by
  refine ⟨?_, ?_, ?_⟩
  · rw [duplicateFormBatch_noFail_ops original fid nid t cs hcs,
      duplicateFormLegacy_noFail_ops original fid nid t]
  · rw [duplicateFormBatch_noFail_result original fid nid t cs hcs,
      duplicateFormLegacy_noFail_result original fid nid t]
  · have := duplicateFormBatch_noFail_result original fid nid t cs hcs
    cases hres : (duplicateFormBatch original fid nid t cs noFail).1.toOption with
    | none => rw [hres] at this; simp at this
    | some r => simp [hres]

/-- Claim C9 witness: the equivalence holds at a concrete 2-item form with
settings under the chunked regime (`chunkSize = 2`). -/
theorem C9_batch_legacy_equivalence_witness :
    createItemOpsOfLog (duplicateFormBatch formTwoItemsWithSettings "src" "dst" "Copy" 2
        noFail).2 =
      createItemOpsOfLog (duplicateFormLegacy formTwoItemsWithSettings "src" "dst" "Copy"
        noFail).2 ∧
      (duplicateFormBatch formTwoItemsWithSettings "src" "dst" "Copy" 2 noFail).1.toOption.map
          (fun r => (r.copiedItems, r.totalItems)) =
        (duplicateFormLegacy formTwoItemsWithSettings "src" "dst" "Copy" noFail).1.toOption.map
          (fun r => (r.copiedItems, r.totalItems)) ∧
      (duplicateFormBatch formTwoItemsWithSettings "src" "dst" "Copy" 2
        noFail).1.toOption.isSome = true :=
  C9_batch_legacy_equivalence formTwoItemsWithSettings "src" "dst" "Copy" 2 (by decide)

/-- Claim C2 witness: the amended chunk-count formula holds at the concrete
2-item form with settings and `chunkSize = 2`. -/
theorem C2_chunk_count_witness :
    ((batchUpdatesOf (duplicateFormBatch formTwoItemsWithSettings "src" "dst" "Copy" 2
        noFail).2).length =
      (if (settingsRequests formTwoItemsWithSettings).length +
          (formTwoItemsWithSettings.items.getD []).length = 0 then 0
       else if (settingsRequests formTwoItemsWithSettings).length +
          (formTwoItemsWithSettings.items.getD []).length ≤ 2 then 1
       else ((formTwoItemsWithSettings.items.getD []).length + 2 - 1) / 2)) ∧
    (∀ s, formTwoItemsWithSettings.settings = some s →
      ∀ first rest,
        batchUpdatesOf (duplicateFormBatch formTwoItemsWithSettings "src" "dst" "Copy" 2
          noFail).2 = first :: rest →
        first.head? = some (.updateSettings (ensureQuizSettings s) "*")) :=
  C2_chunk_count formTwoItemsWithSettings "src" "dst" "Copy" 2 (by decide)

end GForms
